import Mathlib

/-
Verification of the aimsim reservation-based intersection manager.

The development shallowly embeds the Python sources:
  * src/aimsim/intersections/tiles.py   (Tile, DeterministicTile)
  * src/aimsim/lanes.py                 (Lane.speed_update, effective_speed_limit)
  * src/aimsim/trajectories/bezier.py   (BezierTrajectory.as_intersection_connector)
  * src/aimsim/endpoints/vehicle_spawner.py (VehicleSpawner.step_vehicles)
and models the Tiling operations (whose implementation is absent from the
sources, only their tests exist) from the specification.

Python floats are modelled as exact rationals where only branch logic and
exact arithmetic matter, and as reals where pi is involved.  Python dicts
are modelled as insertion-ordered association lists with unique keys.
Raising an exception is modelled by an explicit error value; a method that
can raise returns its post-state together with an optional error, the
post-state being the receiver as mutated up to the point of the raise.
-/

namespace AimSim

/-! Association-list model of Python dicts. -/

def alistLookup {α β : Type} [DecidableEq α] (k : α) : List (α × β) → Option β
  | [] => none
  | kv :: rest => if kv.1 = k then some kv.2 else alistLookup k rest

def alistInsert {α β : Type} [DecidableEq α] (k : α) (v : β) : List (α × β) → List (α × β)
  | [] => [(k, v)]
  | kv :: rest => if kv.1 = k then (k, v) :: rest else kv :: alistInsert k v rest

def alistErase {α β : Type} [DecidableEq α] (k : α) (l : List (α × β)) : List (α × β) :=
  l.filter (fun kv => decide (kv.1 ≠ k))

def alistHasKey {α β : Type} [DecidableEq α] (k : α) (l : List (α × β)) : Bool :=
  (alistLookup k l).isSome

def sumValues {α : Type} (l : List (α × ℚ)) : ℚ := (l.map Prod.snd).sum

/-! Reservations and tiles, from src/aimsim/intersections/tiles.py.
A vehicle is identified by its VIN (a natural number).  A reservation
carries its vehicle and its committed cells, a map from timestep to a map
from tile id to probability (spec section 3, field `tiles`). -/

structure Reservation where
  vehicle : Nat
  resTiles : List (Nat × List (Nat × ℚ)) := []
deriving DecidableEq

/-- A Tile as in tiles.py: `reserved_by` maps an optional vehicle to the
probability it uses this tile (the key is `None` for forced empty
reservations, see `confirm_reservation`), `potentials` records marks, and
`rejection_threshold` caps the admitted probability mass. -/
structure Tile where
  reserved_by : List (Option Nat × ℚ) := []
  potentials : List (Reservation × ℚ) := []
  rejection_threshold : ℚ := 0
deriving DecidableEq

/-- Embedding of `Tile.will_reservation_work` (tiles.py lines 59-81),
including the source's `>` comparison in the stochastic branch. -/
def Tile.will_reservation_work (tile : Tile) (r : Reservation) (p : ℚ) : Bool :=
  if tile.reserved_by.isEmpty || alistHasKey (some r.vehicle) tile.reserved_by then
    true
  else
    decide (sumValues tile.reserved_by + p > tile.rejection_threshold)

/-- The admission predicate as the specification words it (spec section 4.1):
accept if `reserved_by` is empty, or if the vehicle already holds this
tile, or if the summed probability plus p is at most the threshold. -/
def spec_admission (tile : Tile) (r : Reservation) (p : ℚ) : Bool :=
  tile.reserved_by.isEmpty || alistHasKey (some r.vehicle) tile.reserved_by
    || decide (sumValues tile.reserved_by + p ≤ tile.rejection_threshold)

inductive ConfirmError
  | emptyNotForced
  | incompatible
deriving DecidableEq

/-- Embedding of `Tile.confirm_reservation` (tiles.py lines 92-125).  The
result pairs the post-state with an optional raised error; no mutation
happens before either raise in the source, so the post-state on a raise is
the unchanged receiver. -/
def Tile.confirm_reservation (tile : Tile) (r : Option Reservation) (p : ℚ)
    (force : Bool) : Tile × Option ConfirmError :=
  if r.isNone && !force then
    (tile, some ConfirmError.emptyNotForced)
  else if force || (match r with
                    | some res => tile.will_reservation_work res p
                    | none => true) then
    ({ tile with reserved_by := alistInsert (r.map Reservation.vehicle) p tile.reserved_by },
     none)
  else
    (tile, some ConfirmError.incompatible)

/-- Embedding of `Tile.mark` (tiles.py lines 83-85). -/
def Tile.mark (tile : Tile) (r : Reservation) (p : ℚ) : Tile :=
  { tile with potentials := alistInsert r p tile.potentials }

/-! Deterministic tiles.  The class `DeterministicTile` is declared at
tiles.py lines 136-144 but its body is `raise NotImplementedError`, so the
source provides no behaviour for it. -/

/-- Modelled from the spec: the body of `DeterministicTile` is missing from
the source (tiles.py lines 136-144 raise `NotImplementedError`).  Spec
section 3: for the deterministic variant `reserved_by` holds at most one
vehicle with probability 1; section 9: it collapses the stochastic
arithmetic to a boolean check; the class docstring: as long as p is
positive, the entire tile is reserved.  Admission is therefore the boolean
check: the tile is free or already held by the same vehicle. -/
def DeterministicTile.will_reservation_work (tile : Tile) (r : Reservation) : Bool :=
  tile.reserved_by.isEmpty || alistHasKey (some r.vehicle) tile.reserved_by

/-- Modelled from the spec: confirming on a deterministic tile reserves the
entire tile for the reservation's vehicle with probability 1 whenever the
requested probability is positive and the boolean check (or force) allows
it. -/
def DeterministicTile.confirm_reservation (tile : Tile) (r : Reservation) (p : ℚ)
    (force : Bool) : Tile :=
  if (force || DeterministicTile.will_reservation_work tile r) && decide (0 < p) then
    { tile with reserved_by := [(some r.vehicle, 1)] }
  else
    tile

/-- An operation on a deterministic tile: a mark or a confirm. -/
inductive DOp
  | mark (r : Reservation) (p : ℚ)
  | confirm (r : Reservation) (p : ℚ) (force : Bool)

def DOp.apply (op : DOp) (tile : Tile) : Tile :=
  match op with
  | DOp.mark r p => Tile.mark tile r p
  | DOp.confirm r p force => DeterministicTile.confirm_reservation tile r p force

def applyDOps (ops : List DOp) (tile : Tile) : Tile :=
  ops.foldl (fun t op => DOp.apply op t) tile

/-- The deterministic-tile invariant of spec section 3: at most one vehicle
holds the tile, with recorded probability 1. -/
def detTileInvariant (tile : Tile) : Prop :=
  tile.reserved_by.length ≤ 1 ∧ ∀ kv ∈ tile.reserved_by, kv.2 = 1

/-! Lane speed updates, from src/aimsim/lanes.py.  The trajectory's own
effective speed limit function is an external collaborator (spec section
6), modelled as a function field. -/

structure SpeedUpdate where
  v : ℚ
  a : ℚ
deriving DecidableEq

structure LaneModel where
  speed_limit : ℚ
  trajLimit : ℚ → ℚ

/-- Embedding of `Lane.effective_speed_limit` (lanes.py lines 67-74). -/
def LaneModel.effective_speed_limit (lane : LaneModel) (p : ℚ) : ℚ :=
  min lane.speed_limit (lane.trajLimit p)

/-- Embedding of `Lane.speed_update` (lanes.py lines 168-182).  `veh_v` is
the vehicle's current velocity, `front` its front progress (the source
reads `self.vehicle_progress[vehicle].front`), `dt` is
SHARED.TIMESTEP_LENGTH. -/
def LaneModel.speed_update (lane : LaneModel) (veh_v accel front dt : ℚ) : SpeedUpdate :=
  let v_new := veh_v + accel * dt
  if v_new < 0 then
    { v := 0, a := accel }
  else
    let lim := lane.effective_speed_limit front
    if v_new > lim then { v := lim, a := accel } else { v := v_new, a := accel }

/-! Vehicle spawner linkage check, from
src/aimsim/endpoints/vehicle_spawner.py lines 114-120.  Python object
identity: the class object `Road` is a distinct object from every `Road`
instance, so `self.downstream is not Road` is true for every instance. -/

inductive DownstreamRef
  | roadInstance (oid : Nat)
  | roadClass
deriving DecidableEq

inductive LinkErr
  | noDownstream
  | notRoadLane
deriving DecidableEq

/-- Embedding of the guard at the top of `VehicleSpawner.step_vehicles`:
`if self.downstream is None: raise LinkError` and
`elif self.downstream is not Road: raise LinkError`. -/
def step_vehicles_link_guard (downstream : Option DownstreamRef) : Option LinkErr :=
  match downstream with
  | none => some LinkErr.noDownstream
  | some d => if d = DownstreamRef.roadClass then none else some LinkErr.notRoadLane

/-! Bezier connector degeneracy check, from
src/aimsim/trajectories/bezier.py lines 39-52.  Headings are reals; the
Python float modulo for positive divisors is x - y * floor (x / y). -/

noncomputable def pymod (x y : ℝ) : ℝ := x - y * ((⌊x / y⌋ : ℤ) : ℝ)

/-- Embedding of the guard in `BezierTrajectory.as_intersection_connector`:
`if start_heading % 2*pi == (end_heading + pi) % 2*pi: raise ValueError`.
By Python operator precedence `a % 2*pi` parses as `(a % 2) * pi`. -/
def as_intersection_connector_raises (start_heading end_heading : ℝ) : Prop :=
  pymod start_heading 2 * Real.pi = pymod (end_heading + Real.pi) 2 * Real.pi

/-- The collinearity condition the claim states: the start heading equals
the end heading plus pi, modulo 2 pi. -/
def collinear_headings (start_heading end_heading : ℝ) : Prop :=
  pymod start_heading (2 * Real.pi) = pymod (end_heading + Real.pi) (2 * Real.pi)

/-! The Tiling.  Its implementation is absent from the sources (only the
tests src/test/intersection/tilings/test_square.py and test_tiling.py
exercise it), so the following definitions are modelled from the
specification, sections 3, 4.1 and 4.3, checked against the behaviour the
tests pin down.  Tiles within a layer are stored densely (every layer is
created with `tileCount` fresh tiles, as `_add_new_layer` does in
test_square.py test_new_layer); a layer records the timestep it covers. -/

def freshTile (rt : ℚ) : Tile := { reserved_by := [], potentials := [], rejection_threshold := rt }

structure Layer where
  t : Nat
  tiles : List Tile
deriving DecidableEq

@[ext]
structure TilingState where
  now : Nat
  tileCount : Nat
  threshold : ℚ
  layers : List Layer
  queued : List (Nat × Reservation)
  active : List (Nat × Reservation)
deriving DecidableEq

def emptyTiling : TilingState :=
  { now := 0, tileCount := 1, threshold := 0, layers := [], queued := [], active := [] }

/-- Modelled from the spec: `Tiling._add_new_layer` is absent from src;
spec section 4.1 says it lazily extends the back of the deque, appending a
layer whose timestep is one greater than the previous back layer (and
`now + 1` when the deque is empty, since `tiles[0]` corresponds to
`now + 1`, spec section 3). -/
def TilingState.add_new_layer (s : TilingState) : TilingState :=
  let t2 := match s.layers.getLast? with
            | some l => l.t + 1
            | none => s.now + 1
  { s with layers := s.layers ++ [{ t := t2, tiles := List.replicate s.tileCount (freshTile s.threshold) }] }

/-- Modelled from the spec: `Tiling.handle_new_timestep` is absent from
src; spec section 4.1 says it pops the head layer and advances the logical
`now`. -/
def TilingState.handle_new_timestep (s : TilingState) : TilingState :=
  { s with now := s.now + 1, layers := s.layers.tail }

/-- Modelled from the spec: lazy layer creation (spec section 3, layers
are created lazily on first write); extends the deque until a layer for
timestep `t` exists. -/
def TilingState.ensure_layers (s : TilingState) (t : Nat) : TilingState :=
  TilingState.add_new_layer^[t - s.now - s.layers.length] s

/-- The tile for timestep `t` and tile id `tid`; a missing layer or id
reads as a fresh tile (a lazily created layer holds only fresh tiles, so
this read is observationally the lazy read). -/
def TilingState.tileAt (s : TilingState) (t tid : Nat) : Tile :=
  match s.layers.get? (t - s.now - 1) with
  | some l => l.tiles.getD tid (freshTile s.threshold)
  | none => freshTile s.threshold

inductive TilingError
  | badTimestep
  | missingTimestepsForward
  | unknownVehicle
deriving DecidableEq

/-- Modelled from the spec: `Tiling.pos_to_tiles` is absent from src; spec
section 4.1: given a speculative vehicle pose at time `t`, compute the
covered tiles and per-tile probability; `t` must be strictly greater than
`now` (raise otherwise, section 7); return `None` if any covered tile
refuses the reservation under `will_reservation_work`.  The rasterised
footprint is passed in as `covered`, the list of covered tile ids (the
rasterisation geometry is outside this claim). -/
def TilingState.pos_to_tiles (s : TilingState) (t : Nat) (covered : List Nat)
    (r : Reservation) (p : ℚ) :
    Except TilingError (Option (List (Nat × ℚ)) × TilingState) :=
  if t ≤ s.now then
    Except.error TilingError.badTimestep
  else
    let s2 := s.ensure_layers t
    if covered.all (fun tid => (s2.tileAt t tid).will_reservation_work r p) then
      Except.ok (some (covered.map (fun tid => (tid, p))), s2)
    else
      Except.ok (none, s2)

/-- Modelled from the spec: `Tiling.io_tile_buffer` is absent from src;
spec section 4.1: reserve a buffer window at the entry (timesteps `now+1`
through `t-1`, empty when `t = now+1`, per test_io_buffer) or at the exit
(timesteps `t+1` through `t+k`); `t` must be strictly greater than `now`;
a postpend call must provide `timesteps_forward` (test_io_buffer raises
without it); a contested buffer returns `None`.  `ioTile` is the buffer
tile id at the lane's entry or exit coord. -/
def TilingState.io_tile_buffer (s : TilingState) (t : Nat) (ioTile : Nat)
    (r : Reservation) (p : ℚ) (is_entry : Bool) (k : Option Nat) :
    Except TilingError (Option (List (Nat × List (Nat × ℚ))) × TilingState) :=
  if t ≤ s.now then
    Except.error TilingError.badTimestep
  else if is_entry then
    let ts := List.range' (s.now + 1) (t - s.now - 1)
    let s2 := s.ensure_layers (t - 1)
    if ts.all (fun t2 => (s2.tileAt t2 ioTile).will_reservation_work r p) then
      Except.ok (some (ts.map (fun t2 => (t2, [(ioTile, p)]))), s2)
    else
      Except.ok (none, s2)
  else
    match k with
    | none => Except.error TilingError.missingTimestepsForward
    | some kf =>
      let ts := List.range' (t + 1) kf
      let s2 := s.ensure_layers (t + kf)
      if ts.all (fun t2 => (s2.tileAt t2 ioTile).will_reservation_work r p) then
        Except.ok (some (ts.map (fun t2 => (t2, [(ioTile, p)]))), s2)
      else
        Except.ok (none, s2)

/-- Confirm one cell: `tile.confirm_reservation` on the cell, unforced
(spec section 4.3), keeping the post-state whether or not it raised. -/
def confirmCell (r : Reservation) (p : ℚ) (tile : Tile) : Tile :=
  (Tile.confirm_reservation tile (some r) p false).1

def Layer.writeCell (l : Layer) (tid : Nat) (r : Reservation) (p : ℚ) : Layer :=
  { l with tiles := match l.tiles.get? tid with
                    | some tile => l.tiles.set tid (confirmCell r p tile)
                    | none => l.tiles }

def TilingState.writeTile (s : TilingState) (t tid : Nat) (r : Reservation) (p : ℚ) :
    TilingState :=
  { s with layers := s.layers.map (fun l => if l.t = t then l.writeCell tid r p else l) }

def resCells (r : Reservation) : List (Nat × Nat × ℚ) :=
  r.resTiles.flatMap (fun tt => tt.2.map (fun c => (tt.1, c.1, c.2)))

/-- Modelled from the spec: `Tiling.confirm_reservation` (manager level) is
absent from src; spec section 4.3: commit `res.tiles` into the live Tiling
(`confirm_reservation` on every cell) and move the reservation into
`queued_reservations[vehicle]`. -/
def TilingState.confirm_reservation (s : TilingState) (r : Reservation) : TilingState :=
  let s2 := (resCells r).foldl (fun acc c => acc.writeTile c.1 c.2.1 r c.2.2) s
  { s2 with queued := alistInsert r.vehicle r s2.queued }

/-- Modelled from the spec: `Tiling.start_reservation` is absent from src;
spec section 4.3: moves the vehicle from `queued_reservations` to
`active_reservations`, erroring for an unknown vehicle. -/
def TilingState.start_reservation (s : TilingState) (v : Nat) :
    Except TilingError TilingState :=
  match alistLookup v s.queued with
  | none => Except.error TilingError.unknownVehicle
  | some r =>
    Except.ok { s with queued := alistErase v s.queued, active := alistInsert v r s.active }

def Tile.clearVehicle (tile : Tile) (v : Nat) : Tile :=
  { tile with reserved_by := alistErase (some v) tile.reserved_by }

def Layer.clearVehicleTiles (l : Layer) (v : Nat) : Layer :=
  { l with tiles := l.tiles.map (fun tile => tile.clearVehicle v) }

/-- Modelled from the spec: `Tiling.clear_reservation` is absent from src;
spec sections 3 and 4.3: remove the vehicle from `active_reservations` and
erase all `reserved_by` entries for this vehicle in future tiles. -/
def TilingState.clear_reservation (s : TilingState) (v : Nat) : TilingState :=
  { s with active := alistErase v s.active,
           layers := s.layers.map (fun l => l.clearVehicleTiles v) }

/-- The rolling-window invariant, spec sections 3, 4.1 and 8: the layer at
index i covers timestep `now + 1 + i` (in particular `tiles[0].t = now + 1`). -/
def windowInv (s : TilingState) : Prop :=
  ∀ i l, s.layers.get? i = some l → l.t = s.now + 1 + i

/-! The request simulator.  `Tiling.check_request` and `_mock_step` are
absent from the sources (only test_tiling.py drives them), so the rollout
is modelled from spec sections 4.2 and 5: clone the candidate vehicles
into disposable mocks, replay kinematics tick by tick (each clone
accelerates at `min_acceleration` toward the speed limit), check tile
admission against the live Tiling by pure reads, and collect the validated
reservations; the live world is only read, never written. -/

structure MockVehicle where
  vin : Nat
  progress : ℚ
  velocity : ℚ
deriving DecidableEq

structure MockWorld where
  clones : List MockVehicle
  valid : List Reservation
  t : Nat
deriving DecidableEq

/-- The live data structures of spec section 5: the Tiling (the single
shared mutable structure), the real incoming lane's vehicle order, and the
original vehicles' kinematic records (vin, progress, velocity). -/
structure World where
  tiling : TilingState
  laneQueue : List Nat
  vehicles : List (Nat × ℚ × ℚ)
deriving DecidableEq

structure SimConfig where
  min_acceleration : ℚ
  speed_limit : ℚ
  exitTile : Nat
deriving DecidableEq

/-- Modelled from the spec: `clone_for_request` produces deep copies used
only inside the speculative rollout (spec section 3). -/
def cloneWorld (w : World) : MockWorld :=
  { clones := w.vehicles.map (fun vr => { vin := vr.1, progress := vr.2.1, velocity := vr.2.2 }),
    valid := [],
    t := w.tiling.now }

def mockSpeed (cfg : SimConfig) (mv : MockVehicle) : MockVehicle :=
  let v2 := min (mv.velocity + cfg.min_acceleration) cfg.speed_limit
  { vin := mv.vin, progress := mv.progress + v2, velocity := v2 }

/-- Modelled from the spec: one `_mock_step` of the rollout (spec section
4.2): speed-update every clone toward the speed limit at
`min_acceleration`, advance it, and validate clones whose rear crosses
progress 1 by an admission read (`will_reservation_work` is a pure
read-path, spec section 5) against the live tiles; validated clones
produce reservations, contested ones are dropped. -/
def mockStep (cfg : SimConfig) (live : TilingState) (m : MockWorld) : MockWorld :=
  let t2 := m.t + 1
  let moved := m.clones.map (mockSpeed cfg)
  let staying := moved.filter (fun mv => decide (mv.progress < 1))
  let exiting := moved.filter (fun mv => decide (1 ≤ mv.progress))
  let accepted := exiting.filter (fun mv =>
    (live.tileAt t2 cfg.exitTile).will_reservation_work { vehicle := mv.vin } 1)
  { clones := staying,
    valid := m.valid ++ accepted.map
      (fun mv => { vehicle := mv.vin, resTiles := [(t2, [(cfg.exitTile, 1)])] }),
    t := t2 }

structure SimState where
  live : World
  mock : MockWorld

def simStep (cfg : SimConfig) (s : SimState) : SimState :=
  { live := s.live, mock := mockStep cfg s.live.tiling s.mock }

/-- Modelled from the spec: `check_request` (spec sections 4.2 and 5) is
synchronous and self-contained: it clones, rolls the mock world forward
internally for the lifetime of the candidate reservations, and returns the
validated reservations; the caller commits them. -/
def check_request (cfg : SimConfig) (w : World) (steps : Nat) :
    List Reservation × World :=
  let s0 : SimState := { live := w, mock := cloneWorld w }
  let s1 := (simStep cfg)^[steps] s0
  (s1.mock.valid, s1.live)

/-! Association-list lemmas. -/

theorem alistLookup_insert_self {α β : Type} [DecidableEq α] (k : α) (v : β) :
    ∀ l : List (α × β), alistLookup k (alistInsert k v l) = some v
  | [] => by simp [alistInsert, alistLookup]
  | kv :: rest => by
    by_cases h : kv.1 = k
    · simp [alistInsert, alistLookup, h]
    · simp [alistInsert, alistLookup, h, alistLookup_insert_self k v rest]

theorem alistErase_noop {α β : Type} [DecidableEq α] (k : α) (l : List (α × β))
    (h : alistLookup k l = none) : alistErase k l = l := by
  induction l with
  | nil => rfl
  | cons kv rest ih =>
    simp only [alistLookup] at h
    by_cases hk : kv.1 = k
    · rw [if_pos hk] at h
      exact absurd h (by simp)
    · rw [if_neg hk] at h
      simpa [alistErase, hk] using ih h

theorem alistErase_insert_eq {α β : Type} [DecidableEq α] (k : α) (v : β)
    (l : List (α × β)) :
    alistErase k (alistInsert k v l) = alistErase k l := by
  induction l with
  | nil => simp [alistInsert, alistErase]
  | cons kv rest ih =>
    by_cases h : kv.1 = k
    · simp [alistInsert, alistErase, h]
    · simpa [alistInsert, alistErase, h] using ih

theorem alistErase_insert {α β : Type} [DecidableEq α] (k : α) (v : β)
    (l : List (α × β)) (h : alistLookup k l = none) :
    alistErase k (alistInsert k v l) = l := by
  rw [alistErase_insert_eq, alistErase_noop k l h]

/-! C1.  The stochastic admission predicate of `will_reservation_work`
uses `>` where the spec states `≤`. -/

/-- C1: on a tile whose sole confirmed reservation has probability 1/2 and
whose rejection threshold is 3/5, a different vehicle requesting with
probability 1/5 puts the summed probability 7/10 strictly over the
threshold; the claim (and the tile's own docstring) say the request must
be refused, yet `will_reservation_work` returns `true`, because the source
compares with `>` where the claim states `≤`. -/
theorem C1_admission_threshold_inverted :
    Tile.will_reservation_work
        { reserved_by := [(some 1, 1/2)], potentials := [], rejection_threshold := 3/5 }
        { vehicle := 2 } (1/5) = true ∧
      spec_admission
        { reserved_by := [(some 1, 1/2)], potentials := [], rejection_threshold := 3/5 }
        { vehicle := 2 } (1/5) = false ∧
      sumValues [((some 1 : Option Nat), (1/2 : ℚ))] + 1/5 > 3/5 := by
  refine ⟨?_, ?_, ?_⟩
  · simp only [Tile.will_reservation_work, alistHasKey, alistLookup, sumValues]
    norm_num
  · simp only [spec_admission, alistHasKey, alistLookup, sumValues]
    norm_num
  · simp only [sumValues]
    norm_num

/-! C2.  The raise/record contract of `Tile.confirm_reservation`. -/

/-- C2: `Tile.confirm_reservation (r, p, force)` raises exactly when the
reservation is `None` without `force`, or when `force` is off and
`will_reservation_work` refuses; in every non-raising case it records
`r.vehicle ↦ p` (key `None` when `r` is `None`) in `reserved_by`, leaving
the other fields unchanged; in the raising case the tile is unchanged. -/
theorem C2_confirm_reservation_contract (tile : Tile) (r : Option Reservation)
    (p : ℚ) (force : Bool) :
    ((tile.confirm_reservation r p force).2.isSome = true ↔
      ((r = none ∧ force = false) ∨
        (force = false ∧ ∃ res, r = some res ∧ tile.will_reservation_work res p = false))) ∧
    ((tile.confirm_reservation r p force).2.isSome = true →
      (tile.confirm_reservation r p force).1 = tile) ∧
    ((tile.confirm_reservation r p force).2 = none →
      (tile.confirm_reservation r p force).1 =
        { tile with
            reserved_by := alistInsert (r.map Reservation.vehicle) p tile.reserved_by } ∧
      alistLookup (r.map Reservation.vehicle)
          (tile.confirm_reservation r p force).1.reserved_by = some p ∧
      (tile.confirm_reservation r p force).1.potentials = tile.potentials ∧
      (tile.confirm_reservation r p force).1.rejection_threshold =
        tile.rejection_threshold) := by
  rcases r with _ | res
  · cases force <;>
      simp [Tile.confirm_reservation, alistLookup_insert_self]
  · cases force
    · by_cases h : tile.will_reservation_work res p = true
      · simp [Tile.confirm_reservation, h, alistLookup_insert_self]
      · rw [Bool.not_eq_true] at h
        simp [Tile.confirm_reservation, h]
    · simp [Tile.confirm_reservation, alistLookup_insert_self]

/-- C2 witness: a `None` reservation without `force` raises and leaves the
empty tile unchanged. -/
theorem C2_confirm_reservation_contract_witness :
    (Tile.confirm_reservation
        { reserved_by := [], potentials := [], rejection_threshold := 0 } none 1 false).1 =
      { reserved_by := [], potentials := [], rejection_threshold := 0 } :=
  (C2_confirm_reservation_contract
      { reserved_by := [], potentials := [], rejection_threshold := 0 } none 1 false).2.1
    (by rfl)

/-! C8.  The linkage guard of `VehicleSpawner.step_vehicles`. -/

/-- C8: the guard `self.downstream is not Road` compares the downstream
object's identity with the class object `Road`, which is distinct from
every `Road` instance; so `step_vehicles` raises `LinkError` on every call
for every spawner wired to an actual `Road`, contradicting the claim that
a successfully wired spawner never sees a `LinkError` at tick time. -/
theorem C8_link_guard_raises_for_every_road_instance (oid : Nat) :
    step_vehicles_link_guard (some (DownstreamRef.roadInstance oid)) =
      some LinkErr.notRoadLane := rfl

/-! C9.  The deterministic-tile invariant. -/

theorem detInvariant_apply (op : DOp) (tile : Tile) (h : detTileInvariant tile) :
    detTileInvariant (DOp.apply op tile) := by
  cases op with
  | mark r p => exact h
  | confirm r p force =>
    simp only [DOp.apply, DeterministicTile.confirm_reservation]
    split
    · constructor
      · simp
      · intro kv hkv
        simp at hkv
        rw [hkv]
    · exact h

theorem applyDOps_invariant : ∀ (ops : List DOp) (tile : Tile),
    detTileInvariant tile → detTileInvariant (applyDOps ops tile)
  | [], _, h => h
  | op :: rest, tile, h =>
    applyDOps_invariant rest (DOp.apply op tile) (detInvariant_apply op tile h)

/-- C9: starting from a fresh deterministic tile, any sequence of mark and
confirm operations leaves `reserved_by` with at most one vehicle, recorded
with probability 1. -/
theorem C9_deterministic_tile_invariant (ops : List DOp) (rt : ℚ) :
    detTileInvariant
      (applyDOps ops { reserved_by := [], potentials := [], rejection_threshold := rt }) :=
  applyDOps_invariant ops _ (by constructor <;> simp [detTileInvariant])

/-! C10.  `Lane.speed_update` clamps velocity, never the acceleration. -/

/-- C10: for a nonnegative effective speed limit at the vehicle's front
progress, the velocity returned by `speed_update` is the raw update
`v + accel * dt` clamped to `[0, effective_speed_limit]`, and the returned
acceleration is the `accel` argument unchanged. -/
theorem C10_speed_update_clamps_velocity (lane : LaneModel)
    (veh_v accel front dt : ℚ) (h : 0 ≤ lane.effective_speed_limit front) :
    0 ≤ (lane.speed_update veh_v accel front dt).v ∧
    (lane.speed_update veh_v accel front dt).v ≤ lane.effective_speed_limit front ∧
    (lane.speed_update veh_v accel front dt).a = accel ∧
    (lane.speed_update veh_v accel front dt).v =
      max 0 (min (veh_v + accel * dt) (lane.effective_speed_limit front)) := by
  simp only [LaneModel.speed_update]
  split
  · rename_i h1
    refine ⟨le_refl 0, h, rfl, ?_⟩
    rw [min_eq_left (by linarith), max_eq_left (by linarith)]
  · rename_i h1
    push_neg at h1
    split
    · rename_i h2
      refine ⟨h, le_refl _, rfl, ?_⟩
      rw [min_eq_right (by linarith), max_eq_right h]
    · rename_i h2
      push_neg at h2
      refine ⟨h1, h2, rfl, ?_⟩
      rw [min_eq_left h2, max_eq_right h1]

/-- C10 witness: with speed limit 30 everywhere, velocity 5 and a hard
brake of -10 over one timestep, the velocity clamps to 0 while the
returned acceleration stays -10. -/
theorem C10_speed_update_clamps_velocity_witness :
    0 ≤ (LaneModel.speed_update { speed_limit := 30, trajLimit := fun _q => 30 } 5 (-10) 0 1).v ∧
    (LaneModel.speed_update { speed_limit := 30, trajLimit := fun _q => 30 } 5 (-10) 0 1).a = -10 := by
  have h := C10_speed_update_clamps_velocity
    { speed_limit := 30, trajLimit := fun _q => 30 } 5 (-10) 0 1
    (by norm_num [LaneModel.effective_speed_limit])
  exact ⟨h.1, h.2.2.1⟩

/-! C6.  `check_request` never writes to the live world. -/

theorem simStep_iterate_live (cfg : SimConfig) :
    ∀ (n : Nat) (s : SimState), ((simStep cfg)^[n] s).live = s.live
  | 0, _ => rfl
  | n + 1, s => by
    rw [Function.iterate_succ_apply]
    exact simStep_iterate_live cfg n (simStep cfg s)

/-- C6: `check_request` clones and rolls forward internally; the live
world — the Tiling with all its tiles, the real lane ordering, and the
original vehicles — is returned identical to its input, whatever the
returned reservation list is. -/
theorem C6_check_request_frame (cfg : SimConfig) (w : World) (steps : Nat) :
    (check_request cfg w steps).2 = w ∧
    (check_request cfg w steps).2.tiling = w.tiling ∧
    (check_request cfg w steps).2.laneQueue = w.laneQueue ∧
    (check_request cfg w steps).2.vehicles = w.vehicles := by
  have h : (check_request cfg w steps).2 = w :=
    simStep_iterate_live cfg steps { live := w, mock := cloneWorld w }
  exact ⟨h, by rw [h], by rw [h], by rw [h]⟩

/-! C4.  The rolling-window invariant. -/

theorem add_layer_time (s : TilingState) (h : windowInv s) :
    (match s.layers.getLast? with
     | some lb => lb.t + 1
     | none => s.now + 1) = s.now + 1 + s.layers.length := by
  rcases hlast : s.layers.getLast? with _ | lb
  · rw [List.getLast?_eq_get?, List.get?_eq_none] at hlast
    have : s.layers.length = 0 := by omega
    simp [this]
  · have hne : s.layers.length ≠ 0 := by
      intro h0
      rw [List.getLast?_eq_get?] at hlast
      rw [List.get?_eq_none.mpr (by omega)] at hlast
      exact absurd hlast (by simp)
    rw [List.getLast?_eq_get?] at hlast
    have := h (s.layers.length - 1) lb hlast
    simp only []
    omega

theorem windowInv_add_new_layer (s : TilingState) (h : windowInv s) :
    windowInv s.add_new_layer := by
  intro i l hget
  have ht2 := add_layer_time s h
  simp only [TilingState.add_new_layer] at hget
  change l.t = s.now + 1 + i
  rcases lt_trichotomy i s.layers.length with hi | hi | hi
  · rw [List.get?_append hi] at hget
    exact h i l hget
  · subst hi
    rw [List.get?_concat_length] at hget
    injection hget with hget
    rw [← hget]
    exact ht2
  · rw [List.get?_eq_none.mpr (by simp; omega)] at hget
    exact absurd hget (by simp)

theorem windowInv_handle_new_timestep (s : TilingState) (h : windowInv s) :
    windowInv s.handle_new_timestep := by
  intro i l hget
  change l.t = s.now + 1 + 1 + i
  have htail : s.handle_new_timestep.layers = s.layers.tail := rfl
  rw [htail] at hget
  cases hl : s.layers with
  | nil => rw [hl] at hget; simp at hget
  | cons a rest =>
    rw [hl] at hget
    simp only [List.tail_cons] at hget
    have := h (i + 1) l (by rw [hl, List.get?_cons_succ]; exact hget)
    omega

theorem windowInv_of_shape (s s2 : TilingState) (hnow : s2.now = s.now)
    (hmap : s2.layers.map Layer.t = s.layers.map Layer.t) (h : windowInv s) :
    windowInv s2 := by
  intro i l hget
  have h1 : (s2.layers.map Layer.t).get? i = some l.t := by
    rw [List.get?_map, hget]
    rfl
  rw [hmap, List.get?_map] at h1
  rcases hx : s.layers.get? i with _ | l0
  · rw [hx] at h1
    simp at h1
  · rw [hx] at h1
    have h2 : l0.t = l.t := by simpa using h1
    have h3 := h i l0 hx
    rw [hnow]
    omega

theorem windowInv_iterate_add : ∀ (n : Nat) (s : TilingState), windowInv s →
    windowInv (TilingState.add_new_layer^[n] s)
  | 0, _, h => h
  | n + 1, s, h => by
    rw [Function.iterate_succ_apply]
    exact windowInv_iterate_add n _ (windowInv_add_new_layer s h)

theorem clear_confirmCell (tile : Tile) (r : Reservation) (p : ℚ) :
    (confirmCell r p tile).clearVehicle r.vehicle = tile.clearVehicle r.vehicle := by
  simp only [confirmCell, Tile.confirm_reservation]
  by_cases h : tile.will_reservation_work r p = true
  · simp [h, Tile.clearVehicle, alistErase_insert_eq]
  · rw [Bool.not_eq_true] at h
    simp [h]

theorem map_clear_set (r : Reservation) (p : ℚ) :
    ∀ (tiles : List Tile) (tid : Nat) (tile : Tile),
      tiles.get? tid = some tile →
      (tiles.set tid (confirmCell r p tile)).map (fun u => u.clearVehicle r.vehicle) =
        tiles.map (fun u => u.clearVehicle r.vehicle)
  | [], _, _, h => by simp at h
  | a :: _, 0, tile, h => by
    injection h with h
    subst h
    simp [clear_confirmCell]
  | a :: rest, tid + 1, tile, h => by
    simp only [List.set, List.map_cons]
    rw [map_clear_set r p rest tid tile h]

theorem clear_writeCell (l : Layer) (tid : Nat) (r : Reservation) (p : ℚ) :
    (l.writeCell tid r p).clearVehicleTiles r.vehicle = l.clearVehicleTiles r.vehicle := by
  simp only [Layer.writeCell]
  rcases hx : l.tiles.get? tid with _ | tile
  · rfl
  · simp only [Layer.clearVehicleTiles]
    congr 1
    exact map_clear_set r p l.tiles tid tile hx

theorem writeTile_clear (s : TilingState) (t tid : Nat) (r : Reservation) (p : ℚ) :
    (s.writeTile t tid r p).layers.map (fun l => l.clearVehicleTiles r.vehicle) =
      s.layers.map (fun l => l.clearVehicleTiles r.vehicle) := by
  simp only [TilingState.writeTile, List.map_map]
  apply List.map_congr_left
  intro a _
  by_cases h : a.t = t
  · simp [h, clear_writeCell]
  · simp [h]

theorem writeTile_shape (s : TilingState) (t tid : Nat) (r : Reservation) (p : ℚ) :
    (s.writeTile t tid r p).layers.map Layer.t = s.layers.map Layer.t := by
  simp only [TilingState.writeTile, List.map_map]
  apply List.map_congr_left
  intro a _
  by_cases h : a.t = t
  · simp [h, Layer.writeCell]
  · simp [h]

theorem confirmFold_frame (r : Reservation) :
    ∀ (cells : List (Nat × Nat × ℚ)) (s : TilingState),
      (cells.foldl (fun acc c => acc.writeTile c.1 c.2.1 r c.2.2) s).now = s.now ∧
      (cells.foldl (fun acc c => acc.writeTile c.1 c.2.1 r c.2.2) s).tileCount = s.tileCount ∧
      (cells.foldl (fun acc c => acc.writeTile c.1 c.2.1 r c.2.2) s).threshold = s.threshold ∧
      (cells.foldl (fun acc c => acc.writeTile c.1 c.2.1 r c.2.2) s).queued = s.queued ∧
      (cells.foldl (fun acc c => acc.writeTile c.1 c.2.1 r c.2.2) s).active = s.active ∧
      (cells.foldl (fun acc c => acc.writeTile c.1 c.2.1 r c.2.2) s).layers.map Layer.t =
        s.layers.map Layer.t ∧
      (cells.foldl (fun acc c => acc.writeTile c.1 c.2.1 r c.2.2) s).layers.map
          (fun l => l.clearVehicleTiles r.vehicle) =
        s.layers.map (fun l => l.clearVehicleTiles r.vehicle)
  | [], _ => ⟨rfl, rfl, rfl, rfl, rfl, rfl, rfl⟩
  | c :: rest, s => by
    have ih := confirmFold_frame r rest (s.writeTile c.1 c.2.1 r c.2.2)
    refine ⟨ih.1, ih.2.1, ih.2.2.1, ih.2.2.2.1, ih.2.2.2.2.1, ?_, ?_⟩
    · rw [List.foldl_cons] at *
      rw [ih.2.2.2.2.2.1, writeTile_shape]
    · rw [List.foldl_cons] at *
      rw [ih.2.2.2.2.2.2, writeTile_clear]

theorem clear_reservation_shape (s : TilingState) (v : Nat) :
    (s.clear_reservation v).layers.map Layer.t = s.layers.map Layer.t := by
  simp only [TilingState.clear_reservation, List.map_map]
  apply List.map_congr_left
  intro a _
  rfl

/-- C4: the rolling-window invariant `tiles[i].t = now + 1 + i` (so in
particular the front layer covers `now + 1`) is preserved by every Tiling
operation; `handle_new_timestep` pops the head layer while advancing the
logical now, and `add_new_layer` appends at the back with the next
timestep, which under the invariant is `now + 1 + length`. -/
theorem C4_rolling_window_invariant (s : TilingState) (h : windowInv s) :
    windowInv s.add_new_layer ∧
    windowInv s.handle_new_timestep ∧
    s.handle_new_timestep.now = s.now + 1 ∧
    s.handle_new_timestep.layers = s.layers.tail ∧
    (∀ t, windowInv (s.ensure_layers t)) ∧
    (∀ r, windowInv (s.confirm_reservation r)) ∧
    (∀ v s2, s.start_reservation v = Except.ok s2 → windowInv s2) ∧
    (∀ v, windowInv (s.clear_reservation v)) ∧
    (∀ l, s.layers.get? 0 = some l → l.t = s.now + 1) := by
  refine ⟨windowInv_add_new_layer s h, windowInv_handle_new_timestep s h, rfl, rfl,
    ?_, ?_, ?_, ?_, ?_⟩
  · intro t
    exact windowInv_iterate_add (t - s.now - s.layers.length) s h
  · intro r
    have hf := confirmFold_frame r (resCells r) s
    exact windowInv_of_shape s (s.confirm_reservation r) hf.1 hf.2.2.2.2.2.1 h
  · intro v s2 hok
    simp only [TilingState.start_reservation] at hok
    rcases hx : alistLookup v s.queued with _ | r
    · rw [hx] at hok
      exact absurd hok (by simp)
    · rw [hx] at hok
      injection hok with hok
      rw [← hok]
      exact windowInv_of_shape s _ rfl rfl h
  · intro v
    exact windowInv_of_shape s (s.clear_reservation v) rfl (clear_reservation_shape s v) h
  · intro l hget
    have := h 0 l hget
    omega

/-- C4 witness: the empty Tiling satisfies the invariant vacuously, and
after one `add_new_layer` the invariant still holds. -/
theorem C4_rolling_window_invariant_witness :
    windowInv (TilingState.add_new_layer emptyTiling) :=
  (C4_rolling_window_invariant emptyTiling
      (fun i l hget => by simp [emptyTiling] at hget)).1

/-! C3.  Public tiling operations validate `t > now` and signal admission
conflicts by `None`, never by raising. -/

/-- C3: `pos_to_tiles` and `io_tile_buffer` raise exactly on a timestep at
or before `now`; for `t > now` neither raises (for `io_tile_buffer`
provided an entry call or a supplied `timesteps_forward`), and a refusal
by any covered or buffer tile yields the result `none` instead of an
error. -/
theorem C3_admission_failures_return_none (s : TilingState) (t : Nat)
    (covered : List Nat) (r : Reservation) (p : ℚ) (ioTile : Nat) (k : Nat) :
    (t ≤ s.now →
      s.pos_to_tiles t covered r p = Except.error TilingError.badTimestep ∧
      (∀ is_entry ko, s.io_tile_buffer t ioTile r p is_entry ko =
        Except.error TilingError.badTimestep)) ∧
    (s.now < t →
      (∀ e, s.pos_to_tiles t covered r p ≠ Except.error e) ∧
      ((∃ tid ∈ covered,
          ((s.ensure_layers t).tileAt t tid).will_reservation_work r p = false) →
        s.pos_to_tiles t covered r p = Except.ok (none, s.ensure_layers t)) ∧
      (∀ e, s.io_tile_buffer t ioTile r p true none ≠ Except.error e) ∧
      (∀ e, s.io_tile_buffer t ioTile r p false (some k) ≠ Except.error e) ∧
      ((∃ t2 ∈ List.range' (s.now + 1) (t - s.now - 1),
          ((s.ensure_layers (t - 1)).tileAt t2 ioTile).will_reservation_work r p = false) →
        s.io_tile_buffer t ioTile r p true none =
          Except.ok (none, s.ensure_layers (t - 1))) ∧
      ((∃ t2 ∈ List.range' (t + 1) k,
          ((s.ensure_layers (t + k)).tileAt t2 ioTile).will_reservation_work r p = false) →
        s.io_tile_buffer t ioTile r p false (some k) =
          Except.ok (none, s.ensure_layers (t + k)))) := by
  constructor
  · intro hle
    refine ⟨?_, ?_⟩
    · simp [TilingState.pos_to_tiles, hle]
    · intro is_entry ko
      simp [TilingState.io_tile_buffer, hle]
  · intro hgt
    have hnle : ¬ t ≤ s.now := by omega
    refine ⟨?_, ?_, ?_, ?_, ?_, ?_⟩
    · intro e
      rcases hall : covered.all
          (fun tid => ((s.ensure_layers t).tileAt t tid).will_reservation_work r p) <;>
        simp [TilingState.pos_to_tiles, hnle, hall]
    · rintro ⟨tid, htid, hfalse⟩
      have hall : covered.all
          (fun tid => ((s.ensure_layers t).tileAt t tid).will_reservation_work r p) = false := by
        rcases hc : covered.all
            (fun tid => ((s.ensure_layers t).tileAt t tid).will_reservation_work r p)
        · rfl
        · rw [List.all_eq_true] at hc
          have := hc tid htid
          rw [hfalse] at this
          exact absurd this (by simp)
      simp [TilingState.pos_to_tiles, hnle, hall]
    · intro e
      rcases hall : (List.range' (s.now + 1) (t - s.now - 1)).all
          (fun t2 => ((s.ensure_layers (t - 1)).tileAt t2 ioTile).will_reservation_work r p) <;>
        simp [TilingState.io_tile_buffer, hnle, hall]
    · intro e
      rcases hall : (List.range' (t + 1) k).all
          (fun t2 => ((s.ensure_layers (t + k)).tileAt t2 ioTile).will_reservation_work r p) <;>
        simp [TilingState.io_tile_buffer, hnle, hall]
    · rintro ⟨t2, ht2, hfalse⟩
      have hall : (List.range' (s.now + 1) (t - s.now - 1)).all
          (fun t2 => ((s.ensure_layers (t - 1)).tileAt t2 ioTile).will_reservation_work r p)
            = false := by
        rcases hc : (List.range' (s.now + 1) (t - s.now - 1)).all
            (fun t2 => ((s.ensure_layers (t - 1)).tileAt t2 ioTile).will_reservation_work r p)
        · rfl
        · rw [List.all_eq_true] at hc
          have := hc t2 ht2
          rw [hfalse] at this
          exact absurd this (by simp)
      simp [TilingState.io_tile_buffer, hnle, hall]
    · rintro ⟨t2, ht2, hfalse⟩
      have hall : (List.range' (t + 1) k).all
          (fun t2 => ((s.ensure_layers (t + k)).tileAt t2 ioTile).will_reservation_work r p)
            = false := by
        rcases hc : (List.range' (t + 1) k).all
            (fun t2 => ((s.ensure_layers (t + k)).tileAt t2 ioTile).will_reservation_work r p)
        · rfl
        · rw [List.all_eq_true] at hc
          have := hc t2 ht2
          rw [hfalse] at this
          exact absurd this (by simp)
      simp [TilingState.io_tile_buffer, hnle, hall]

/-- C3 witness: on the empty Tiling with `now = 0`, a request at `t = 0`
raises the timestep invariant error. -/
theorem C3_admission_failures_return_none_witness :
    emptyTiling.pos_to_tiles 0 [] { vehicle := 0 } 1 =
      Except.error TilingError.badTimestep :=
  ((C3_admission_failures_return_none emptyTiling 0 [] { vehicle := 0 } 1 0 0).1
    (by simp [emptyTiling])).1

/-! C5.  Confirm then clear is the identity on a clean Tiling. -/

theorem map_id_of_eq {α : Type} (f : α → α) :
    ∀ l : List α, (∀ a ∈ l, f a = a) → l.map f = l
  | [], _ => rfl
  | a :: rest, h => by
    simp only [List.map_cons]
    rw [h a (by simp), map_id_of_eq f rest (fun x hx => h x (by simp [hx]))]

theorem clearVehicle_noop (tile : Tile) (v : Nat)
    (h : alistLookup (some v) tile.reserved_by = none) :
    tile.clearVehicle v = tile := by
  simp only [Tile.clearVehicle]
  rw [alistErase_noop _ _ h]

theorem clearLayers_noop (v : Nat) (layers : List Layer)
    (hclean : ∀ l ∈ layers, ∀ tile ∈ l.tiles,
      alistLookup (some v) tile.reserved_by = none) :
    layers.map (fun l => l.clearVehicleTiles v) = layers := by
  apply map_id_of_eq
  intro l hl
  simp only [Layer.clearVehicleTiles]
  rw [map_id_of_eq _ l.tiles (fun tile ht => clearVehicle_noop tile v (hclean l hl tile ht))]

/-- C5: on a Tiling where the vehicle holds nothing — it is in neither
reservation map and no tile records it — confirming a reservation, then
starting it, then clearing the vehicle restores exactly the original
Tiling state; in particular the vehicle ends in neither
`queued_reservations` nor `active_reservations` and no `reserved_by` entry
for it remains in any tile. -/
theorem C5_confirm_start_clear_roundtrip (s : TilingState) (r : Reservation)
    (hq : alistLookup r.vehicle s.queued = none)
    (ha : alistLookup r.vehicle s.active = none)
    (hclean : ∀ l ∈ s.layers, ∀ tile ∈ l.tiles,
      alistLookup (some r.vehicle) tile.reserved_by = none) :
    ∃ s1, (s.confirm_reservation r).start_reservation r.vehicle = Except.ok s1 ∧
      s1.clear_reservation r.vehicle = s ∧
      alistLookup r.vehicle (s1.clear_reservation r.vehicle).queued = none ∧
      alistLookup r.vehicle (s1.clear_reservation r.vehicle).active = none ∧
      (∀ l ∈ (s1.clear_reservation r.vehicle).layers, ∀ tile ∈ l.tiles,
        alistLookup (some r.vehicle) tile.reserved_by = none) := by
  have hf := confirmFold_frame r (resCells r) s
  have h1 : (s.confirm_reservation r).queued = alistInsert r.vehicle r s.queued := by
    simp only [TilingState.confirm_reservation]
    rw [hf.2.2.2.1]
  have h2 : (s.confirm_reservation r).active = s.active := hf.2.2.2.2.1
  have hlay : (s.confirm_reservation r).layers.map (fun l => l.clearVehicleTiles r.vehicle)
      = s.layers.map (fun l => l.clearVehicleTiles r.vehicle) := hf.2.2.2.2.2.2
  have hnoop : s.layers.map (fun l => l.clearVehicleTiles r.vehicle) = s.layers :=
    clearLayers_noop r.vehicle s.layers hclean
  have hlook : alistLookup r.vehicle (s.confirm_reservation r).queued = some r := by
    rw [h1]
    exact alistLookup_insert_self r.vehicle r s.queued
  have hstart : (s.confirm_reservation r).start_reservation r.vehicle = Except.ok
      { s.confirm_reservation r with
          queued := alistErase r.vehicle (s.confirm_reservation r).queued,
          active := alistInsert r.vehicle r (s.confirm_reservation r).active } := by
    simp only [TilingState.start_reservation, hlook]
  have hfinal : ({ s.confirm_reservation r with
      queued := alistErase r.vehicle (s.confirm_reservation r).queued,
      active := alistInsert r.vehicle r (s.confirm_reservation r).active } :
        TilingState).clear_reservation r.vehicle = s := by
    apply TilingState.ext
    · exact hf.1
    · exact hf.2.1
    · exact hf.2.2.1
    · exact hlay.trans hnoop
    · show alistErase r.vehicle (s.confirm_reservation r).queued = s.queued
      rw [h1]
      exact alistErase_insert r.vehicle r s.queued hq
    · show alistErase r.vehicle
        (alistInsert r.vehicle r (s.confirm_reservation r).active) = s.active
      rw [h2]
      exact alistErase_insert r.vehicle r s.active ha
  refine ⟨_, hstart, hfinal, ?_, ?_, ?_⟩
  · rw [hfinal]
    exact hq
  · rw [hfinal]
    exact ha
  · rw [hfinal]
    exact hclean

/-- C5 witness: confirming a one-cell reservation for vehicle 7 on the
empty Tiling, starting it, then clearing vehicle 7 restores the empty
Tiling. -/
theorem C5_confirm_start_clear_roundtrip_witness :
    ∃ s1, (emptyTiling.confirm_reservation
        { vehicle := 7, resTiles := [(1, [(0, 1)])] }).start_reservation 7 =
          Except.ok s1 ∧
      s1.clear_reservation 7 = emptyTiling := by
  obtain ⟨s1, hstart, hfinal, _⟩ :=
    C5_confirm_start_clear_roundtrip emptyTiling
      { vehicle := 7, resTiles := [(1, [(0, 1)])] } rfl rfl (by simp [emptyTiling])
  exact ⟨s1, hstart, hfinal⟩

/-! C7.  The Bezier connector degeneracy guard.  Heading 0 (east) and
heading pi (west) are collinear — the start heading equals the end heading
plus pi modulo 2 pi — yet the source guard, which by Python precedence
reduces headings modulo 2 instead of modulo 2 pi, does not fire. -/

/-- C7: the lane headings 0 and pi are collinear in the claim's sense, but
`as_intersection_connector` does not raise on them: its guard compares
`(h % 2) * pi` values, and `(0 % 2) * pi = 0` differs from
`((pi + pi) % 2) * pi = (2 pi - 6) pi > 0`. -/
theorem C7_collinear_pair_not_raised :
    collinear_headings 0 Real.pi ∧ ¬ as_intersection_connector_raises 0 Real.pi := by
  have hpi3 : (3 : ℝ) < Real.pi := Real.pi_gt_three
  have hpi4 : Real.pi < 4 := by linarith [Real.pi_lt_four]
  constructor
  · have h2pi : (2 : ℝ) * Real.pi ≠ 0 := ne_of_gt (by linarith)
    have hL : pymod 0 (2 * Real.pi) = 0 := by simp [pymod]
    have hdiv : (Real.pi + Real.pi) / (2 * Real.pi) = 1 := by
      rw [← two_mul]
      exact div_self h2pi
    have hR : pymod (Real.pi + Real.pi) (2 * Real.pi) = 0 := by
      simp only [pymod, hdiv, Int.floor_one]
      push_cast
      ring
    unfold collinear_headings
    rw [hL, hR]
  · intro hguard
    unfold as_intersection_connector_raises at hguard
    have hfloor : ⌊(Real.pi + Real.pi) / 2⌋ = 3 := by
      have hdiv : (Real.pi + Real.pi) / 2 = Real.pi := by ring
      rw [hdiv]
      rw [Int.floor_eq_iff]
      constructor
      · push_cast
        linarith
      · push_cast
        linarith
    have hL : pymod 0 2 = 0 := by simp [pymod]
    have hR : pymod (Real.pi + Real.pi) 2 = Real.pi + Real.pi - 6 := by
      simp only [pymod, hfloor]
      push_cast
      ring
    rw [hL, hR, zero_mul] at hguard
    have hpos : 0 < (Real.pi + Real.pi - 6) * Real.pi :=
      mul_pos (by linarith) (by linarith)
    linarith [hguard, hpos]

end AimSim
